import Mathlib

/-!
Shallow embedding of the ms-health-dashboard data collector
(`part_000`: `getHealthData` / `fetchIssueDetails`).

Timestamps are modelled as integers (seconds); `new Date(x) >= new Date(y)`
becomes integer `≤`.  JS strings are Lean `String`s; the case-insensitive
regex label matching of `fetchIssueDetails` is embedded as an explicit
scan over the character list.  A possibly-absent JSON field is an
`Option`; `x || ''` becomes `Option.getD · ""` (note a present-but-empty
string and an absent field both yield `""`, exactly as in JS).
-/

/-- Case-insensitive character equality, as used by a `/i` regex on
letters. -/
def eqCI (a b : Char) : Bool := a.toLower == b.toLower

/-- `leadsCI pat s`: the pattern `pat` matches case-insensitively at the
start of `s`. -/
def leadsCI : List Char → List Char → Bool
  | [], _ => true
  | _ :: _, [] => false
  | a :: as, b :: bs => eqCI a b && leadsCI as bs

/-- Index of the first case-insensitive occurrence of `pat` in `s`
(leftmost match of the regex literal), if any. -/
def findCI (pat : List Char) : List Char → Option Nat
  | [] => if leadsCI pat [] then some 0 else none
  | b :: bs => if leadsCI pat (b :: bs) then some 0 else (findCI pat bs).map (· + 1)

/-- The character class `\s` of the JS regexes, restricted to the ASCII
whitespace the incident texts contain. -/
def isJsWhitespace (c : Char) : Bool :=
  c == ' ' || (9 ≤ c.toNat && c.toNat ≤ 13)

/-- `String.prototype.trim`: strip whitespace from both ends. -/
def trimChars (s : List Char) : List Char :=
  ((s.dropWhile isJsWhitespace).reverse.dropWhile isJsWhitespace).reverse

/-- Position of the first index of `s` at which one of `stops` matches
case-insensitively, or `s.length` when none does: the amount a lazy
`[^]*?` capture swallows before a `(?=stop1|stop2|...|$)` lookahead
succeeds. -/
def firstStop (stops : List (List Char)) : List Char → Nat
  | [] => 0
  | b :: bs => if stops.any (fun p => leadsCI p (b :: bs)) then 0 else firstStop stops bs + 1

/-- Embedding of `content.match(/LAB\s*([^]*?)(?=S1|S2|...|$)/i)` followed
by `.trim()` on the captured group: `none` when the label does not occur,
otherwise the trimmed capture. -/
def captureAfter (lab : List Char) (stops : List (List Char)) (s : List Char) :
    Option (List Char) :=
  (findCI lab s).map (fun i =>
    let rest := (s.drop (i + lab.length)).dropWhile isJsWhitespace
    trimChars (rest.take (firstStop stops rest)))

def scopeLab : List Char := "Scope of impact:".toList
def scopeStops : List (List Char) :=
  ["Root cause:".toList, "Next update by:".toList, "Final status:".toList]
def rootLab : List Char := "Root cause:".toList
def rootStops : List (List Char) :=
  ["Next update by:".toList, "Final status:".toList, "Scope of impact:".toList]
def impactLab : List Char := "User impact:".toList
def impactStops : List (List Char) :=
  ["Current status:".toList, "More info:".toList]

/-- The scope-of-impact regex of `fetchIssueDetails`, with the `''`
default when the label is missing. -/
def extractScope (content : String) : String :=
  ((captureAfter scopeLab scopeStops content.toList).map String.mk).getD ""

/-- The root-cause regex of `fetchIssueDetails`, with the `''` default. -/
def extractRoot (content : String) : String :=
  ((captureAfter rootLab rootStops content.toList).map String.mk).getD ""

/-- The user-impact regex of `fetchIssueDetails`; `none` models a failed
match (the `if (impactMatch ...)` guard). -/
def extractUserImpactSection (content : String) : Option String :=
  (captureAfter impactLab impactStops content.toList).map String.mk

/-! ## Data model -/

/-- A raw post as delivered inside an issue detail record:
`createdDateTime`, `postType`, and the possibly-absent
`description?.content`. -/
structure RawPost where
  createdDateTime : Int
  postType : Option String
  content : Option String
deriving Repr, DecidableEq

/-- A full issue record as returned by the per-issue detail endpoint. -/
structure RawIssue where
  id : String
  title : String
  startDateTime : Int
  endDateTime : Option Int
  lastModifiedDateTime : Int
  status : String
  classification : String
  impactDescription : Option String
  feature : String
  isResolved : Bool
  posts : List RawPost
deriving Repr, DecidableEq

/-- An issue summary as embedded in a health overview (`item.issues`):
the fields the classifier reads. -/
structure OverviewIssue where
  id : String
  status : String
  endDateTime : Option Int
  lastModifiedDateTime : Int
deriving Repr, DecidableEq

/-- One `healthOverviews` entry. -/
structure HealthOverview where
  service : String
  status : String
  id : String
  issues : List OverviewIssue
deriving Repr, DecidableEq

/-- A normalized post as produced by the `.map` in `fetchIssueDetails`. -/
structure NormalizedPost where
  createdAt : Int
  postType : Option String
  content : String
deriving Repr, DecidableEq

/-- The normalized incident record `fetchIssueDetails` assembles
(`result`); `serviceName` is `none` until the history path stamps it. -/
structure NormalizedIncident where
  id : String
  title : String
  startTime : Int
  endTime : Option Int
  lastModified : Int
  status : String
  severity : String
  userImpact : String
  scopeOfImpact : String
  rootCause : String
  feature : String
  isResolved : Bool
  posts : List NormalizedPost
  serviceName : Option String
deriving Repr, DecidableEq

/-- One entry of the snapshot's `services` array. -/
structure ServiceEntry where
  service : String
  status : String
  id : String
  issues : List NormalizedIncident
deriving Repr, DecidableEq

/-- The snapshot document written to `data.json`. -/
structure HealthSnapshot where
  lastUpdated : Int
  services : List ServiceEntry
  history : List NormalizedIncident
deriving Repr, DecidableEq

/-! ## Status sets and the classifier -/

def ACTIVE_STATUSES : List String :=
  ["investigating", "serviceInterruption", "serviceDegradation", "extendedRecovery"]

def RESOLVED_STATUSES : List String :=
  ["serviceRestored", "postIncidentReviewPublished", "resolved"]

/-- `issue.endDateTime ? new Date(issue.endDateTime) : new Date(issue.lastModifiedDateTime)`. -/
def effectiveEnd (issue : OverviewIssue) : Int :=
  issue.endDateTime.getD issue.lastModifiedDateTime

/-- `thirtyDaysAgo`: `now` minus 30 days, in seconds. -/
def thirtyDaysAgo (now : Int) : Int := now - 30 * 86400

/-- The `activeIssues` filter of `getHealthData`. -/
def activeIssues (item : HealthOverview) : List OverviewIssue :=
  item.issues.filter (fun issue => ACTIVE_STATUSES.contains issue.status)

/-- The `resolvedIssues` filter of `getHealthData`: resolved status and
effective end within the past 30 days (inclusive). -/
def resolvedIssues (now : Int) (item : HealthOverview) : List OverviewIssue :=
  item.issues.filter (fun issue =>
    RESOLVED_STATUSES.contains issue.status
      && decide (thirtyDaysAgo now ≤ effectiveEnd issue))

/-! ## The enricher (`fetchIssueDetails`) -/

/-- The element map of `fullIssue.posts.map(...)`. -/
def rawToNormalizedPost (post : RawPost) : NormalizedPost :=
  { createdAt := post.createdDateTime
    postType := post.postType
    content := post.content.getD "" }

/-- Comparator of the `.sort((a, b) => new Date(b.createdAt) - new Date(a.createdAt))`
call: `a` may precede `b` when `b.createdAt ≤ a.createdAt`. -/
def newestFirst (a b : NormalizedPost) : Bool :=
  decide (b.createdAt ≤ a.createdAt)

/-- Map-then-sort of the posts; JS `Array.prototype.sort` is stable, so a
stable merge sort embeds it. -/
def normalizePosts (posts : List RawPost) : List NormalizedPost :=
  (posts.map rawToNormalizedPost).mergeSort newestFirst

/-- Body of `fetchIssueDetails` after a successful detail fetch:
extraction from the most recent post and assembly of `result`. -/
def buildIssueRecord (fullIssue : RawIssue) (isHistory : Bool) : NormalizedIncident :=
  let userImpact0 := fullIssue.impactDescription.getD ""
  let extracted : String × String × String :=
    match fullIssue.posts.getLast? with
    | none => ("", "", userImpact0)
    | some latestPost =>
      let content := latestPost.content.getD ""
      let scopeOfImpact := extractScope content
      let rootCause := extractRoot content
      let userImpact :=
        match extractUserImpactSection content with
        | some s => if userImpact0 == "" then s else userImpact0
        | none => userImpact0
      (scopeOfImpact, rootCause, userImpact)
  let posts := normalizePosts fullIssue.posts
  { id := fullIssue.id
    title := fullIssue.title
    startTime := fullIssue.startDateTime
    endTime := fullIssue.endDateTime
    lastModified := fullIssue.lastModifiedDateTime
    status := fullIssue.status
    severity := fullIssue.classification
    userImpact := extracted.2.2
    scopeOfImpact := extracted.1
    rootCause := extracted.2.1
    feature := fullIssue.feature
    isResolved := fullIssue.isResolved
    posts := if isHistory then posts.take 5 else posts
    serviceName := none }

/-- `fetchIssueDetails`: the detail lookup is an explicit collaborator
`details`; a failed lookup (`catch`) yields `none` instead of raising. -/
def fetchIssueDetails (details : String → Option RawIssue) (issueId : String)
    (isHistory : Bool) : Option NormalizedIncident :=
  (details issueId).map (fun fullIssue => buildIssueRecord fullIssue isHistory)

/-! ## The snapshot builder (`getHealthData`) -/

/-- The per-service loop over `activeIssues`: enrich, skip failures
(`if (fullIssue) issuesWithPosts.push(fullIssue)`). -/
def buildService (details : String → Option RawIssue) (item : HealthOverview) :
    ServiceEntry :=
  { service := item.service
    status := item.status
    id := item.id
    issues := (activeIssues item).filterMap
      (fun issue => fetchIssueDetails details issue.id false) }

/-- The per-service loop over `resolvedIssues`: enrich in history mode,
skip failures, stamp `serviceName`. -/
def serviceHistory (details : String → Option RawIssue) (now : Int)
    (item : HealthOverview) : List NormalizedIncident :=
  (resolvedIssues now item).filterMap (fun issue =>
    (fetchIssueDetails details issue.id true).map
      (fun r => { r with serviceName := some item.service }))

/-- `recentHistory` accumulated across all services, in loop order. -/
def recentHistory (details : String → Option RawIssue) (now : Int)
    (overviews : List HealthOverview) : List NormalizedIncident :=
  overviews.flatMap (serviceHistory details now)

/-- `new Date(a.endTime || a.lastModified)` on a normalized record. -/
def effEndN (r : NormalizedIncident) : Int := r.endTime.getD r.lastModified

/-- Comparator of the history sort: most recent effective end first. -/
def historyLe (a b : NormalizedIncident) : Bool :=
  decide (effEndN b ≤ effEndN a)

/-- The sorted global history before the 50-entry cap. -/
def sortedHistory (details : String → Option RawIssue) (now : Int)
    (overviews : List HealthOverview) : List NormalizedIncident :=
  (recentHistory details now overviews).mergeSort historyLe

/-- The pure core of `getHealthData`: from the overview response, the
detail-lookup collaborator and the current time to the snapshot. -/
def getHealthData (overviews : List HealthOverview)
    (details : String → Option RawIssue) (now : Int) : HealthSnapshot :=
  { lastUpdated := now
    services := overviews.map (buildService details)
    history := (sortedHistory details now overviews).take 50 }

/-! ## Claims -/

/-- C1: an incident with a resolved status is selected for the snapshot's
history exactly when its effective end time (end time if present, else
last-modified time) is at least `now` minus 30 days; the boundary is
inclusive (exactly 30 days ago: in; 30 days and 1 second ago: out), and a
selected incident whose enrichment succeeds lands in `recentHistory`
stamped with its service name. -/
theorem resolved_history_window (now : Int) (item : HealthOverview)
    (issue : OverviewIssue) (hmem : issue ∈ item.issues)
    (hres : issue.status ∈ RESOLVED_STATUSES) :
    (issue ∈ resolvedIssues now item ↔ now - 30 * 86400 ≤ effectiveEnd issue)
    ∧ (effectiveEnd issue = now - 30 * 86400 → issue ∈ resolvedIssues now item)
    ∧ (effectiveEnd issue = now - 30 * 86400 - 1 → issue ∉ resolvedIssues now item)
    ∧ ∀ (details : String → Option RawIssue) (r : NormalizedIncident),
        issue ∈ resolvedIssues now item →
        fetchIssueDetails details issue.id true = some r →
        { r with serviceName := some item.service } ∈ recentHistory details now [item] := by
  have hmain : issue ∈ resolvedIssues now item ↔ now - 30 * 86400 ≤ effectiveEnd issue := by
    simp [resolvedIssues, List.mem_filter, thirtyDaysAgo, hmem, hres]
  refine ⟨hmain, ?_, ?_, ?_⟩
  · intro h
    exact hmain.mpr (by omega)
  · intro h hin
    have := hmain.mp hin
    omega
  · intro details r hin hfetch
    simp only [recentHistory, List.flatMap_cons, List.flatMap_nil, List.append_nil,
      serviceHistory]
    exact List.mem_filterMap.mpr ⟨issue, hin, by simp [hfetch]⟩

theorem resolved_history_window_witness :
    let issue : OverviewIssue :=
      { id := "EX1", status := "resolved", endDateTime := some 2592000,
        lastModifiedDateTime := 0 }
    let item : HealthOverview :=
      { service := "Exchange Online", status := "serviceOperational", id := "Exchange",
        issues := [issue] }
    issue ∈ resolvedIssues 5184000 item ↔ 5184000 - 30 * 86400 ≤ effectiveEnd issue :=
  (resolved_history_window 5184000 _ _ (by decide) (by decide)).1

/-- C2: an overview incident is placed in the active selection (the list
its service's `issues` are enriched from) exactly when its status is one
of the four active statuses; `investigationSuspended` is not active, so a
suspended incident is never selected. -/
theorem active_issue_classification (item : HealthOverview) (issue : OverviewIssue) :
    (issue ∈ activeIssues item ↔ issue ∈ item.issues ∧ issue.status ∈ ACTIVE_STATUSES)
    ∧ "investigationSuspended" ∉ ACTIVE_STATUSES
    ∧ (issue.status = "investigationSuspended" → issue ∉ activeIssues item) := by
  have hmain : issue ∈ activeIssues item ↔ issue ∈ item.issues ∧ issue.status ∈ ACTIVE_STATUSES := by
    simp [activeIssues, List.mem_filter]
  refine ⟨hmain, by decide, ?_⟩
  intro hs hin
  have := (hmain.mp hin).2
  rw [hs] at this
  exact absurd this (by decide)

theorem active_issue_classification_witness :
    let issue : OverviewIssue :=
      { id := "TM1", status := "investigationSuspended", endDateTime := none,
        lastModifiedDateTime := 7 }
    let item : HealthOverview :=
      { service := "Teams", status := "serviceDegradation", id := "Teams",
        issues := [issue] }
    issue ∉ activeIssues item :=
  (active_issue_classification _ _).2.2 rfl

/-- C10: the active-status set and the resolved-status set are disjoint,
so no overview incident is selected both as active and as recently
resolved within one snapshot. -/
theorem active_resolved_disjoint :
    (∀ s : String, ¬(s ∈ ACTIVE_STATUSES ∧ s ∈ RESOLVED_STATUSES))
    ∧ ∀ (now : Int) (item : HealthOverview) (issue : OverviewIssue),
        ¬(issue ∈ activeIssues item ∧ issue ∈ resolvedIssues now item) := by
  have hsets : ∀ s : String, ¬(s ∈ ACTIVE_STATUSES ∧ s ∈ RESOLVED_STATUSES) := by
    intro s ⟨ha, hr⟩
    simp only [ACTIVE_STATUSES, List.mem_cons, List.not_mem_nil, or_false] at ha
    rcases ha with rfl | rfl | rfl | rfl <;> revert hr <;> decide
  refine ⟨hsets, ?_⟩
  intro now item issue ⟨ha, hr⟩
  have h1 : issue.status ∈ ACTIVE_STATUSES := by
    have := List.mem_filter.mp ha
    exact List.mem_of_elem_eq_true this.2
  have h2 : issue.status ∈ RESOLVED_STATUSES := by
    have := List.mem_filter.mp hr
    simp only [Bool.and_eq_true] at this
    simpa using this.2.1
  exact hsets issue.status ⟨h1, h2⟩

theorem active_resolved_disjoint_witness :
    ¬("resolved" ∈ ACTIVE_STATUSES ∧ "resolved" ∈ RESOLVED_STATUSES) :=
  active_resolved_disjoint.1 "resolved"

/-- C6: in historical mode the enriched update list is the first 5
entries of the descending-sorted sequence (so it never exceeds 5
entries); in active mode no truncation by count is applied (the list
keeps one entry per raw update). -/
theorem history_update_cap (fullIssue : RawIssue) :
    (buildIssueRecord fullIssue true).posts
      = ((buildIssueRecord fullIssue false).posts).take 5
    ∧ (buildIssueRecord fullIssue true).posts.length ≤ 5
    ∧ (buildIssueRecord fullIssue false).posts.length = fullIssue.posts.length := by
  refine ⟨by simp [buildIssueRecord], ?_, ?_⟩
  · simp only [buildIssueRecord, if_true]
    exact List.length_take_le 5 (normalizePosts fullIssue.posts)
  · simp [buildIssueRecord, normalizePosts]

theorem newestFirst_trans (a b c : NormalizedPost) :
    newestFirst a b → newestFirst b c → newestFirst a c := by
  simp only [newestFirst, decide_eq_true_eq]
  omega

theorem newestFirst_total (a b : NormalizedPost) :
    newestFirst a b || newestFirst b a := by
  simp only [newestFirst, Bool.or_eq_true, decide_eq_true_eq]
  omega

theorem historyLe_trans (a b c : NormalizedIncident) :
    historyLe a b → historyLe b c → historyLe a c := by
  simp only [historyLe, decide_eq_true_eq]
  omega

theorem historyLe_total (a b : NormalizedIncident) :
    historyLe a b || historyLe b a := by
  simp only [historyLe, Bool.or_eq_true, decide_eq_true_eq]
  omega

/-- C5: normalized update sequences are sorted newest-first — every
adjacent (indeed every ordered) pair `u1` before `u2` has
`u2.createdAt ≤ u1.createdAt` — and updates sharing a creation timestamp
keep their upstream relative order (the sort is stable): restricted to
any one timestamp, the output equals the mapped input. -/
theorem normalized_updates_sorted_stable (posts : List RawPost) :
    ((normalizePosts posts).Pairwise (fun u1 u2 => u2.createdAt ≤ u1.createdAt))
    ∧ ∀ t : Int,
      (normalizePosts posts).filter (fun u => u.createdAt == t)
        = (posts.map rawToNormalizedPost).filter (fun u => u.createdAt == t) := by
  constructor
  · have h := List.sorted_mergeSort newestFirst_trans newestFirst_total
      (posts.map rawToNormalizedPost)
    exact h.imp (fun hab => by simpa [newestFirst] using hab)
  · intro t
    set l := posts.map rawToNormalizedPost with hl
    set p : NormalizedPost → Bool := fun u => u.createdAt == t with hp
    have hsame : ∀ u, p u = true → u.createdAt = t := by
      intro u hu
      simpa [hp] using hu
    have hpair : (l.filter p).Pairwise (fun a b => newestFirst a b = true) := by
      apply List.pairwise_of_forall_mem_list
      intro a ha b hb
      have ha' := hsame a (List.mem_filter.mp ha).2
      have hb' := hsame b (List.mem_filter.mp hb).2
      simp [newestFirst, ha', hb']
    have hsub : List.Sublist (l.filter p) l := List.filter_sublist l
    have h1 : List.Sublist (l.filter p) (l.mergeSort newestFirst) :=
      List.sublist_mergeSort newestFirst_trans newestFirst_total hpair hsub
    have h2 : List.Sublist ((l.filter p).filter p) ((l.mergeSort newestFirst).filter p) :=
      h1.filter p
    rw [List.filter_filter] at h2
    have h3 : List.Perm ((l.mergeSort newestFirst).filter p) (l.filter p) :=
      (List.mergeSort_perm l newestFirst).filter p
    have hlen : (l.filter (fun a => p a && p a)).length
        = ((l.mergeSort newestFirst).filter p).length := by
      rw [h3.length_eq]
      congr 1
      apply List.filter_congr
      intro a _
      cases hpa : p a <;> simp [hpa]
    have := h2.eq_of_length hlen
    rw [show (fun a => p a && p a) = p from funext fun a => by cases hpa : p a <;> simp [hpa]] at this
    simpa [normalizePosts, hl, hp] using this.symm

/-- C3: the snapshot's history is sorted by effective end time (end time
if present, else last-modified time) descending, never exceeds 50
entries, every kept entry's effective end is at least every discarded
entry's, and kept plus discarded together are exactly the qualifying
(enriched recently-resolved) incidents. -/
theorem history_sorted_and_capped (overviews : List HealthOverview)
    (details : String → Option RawIssue) (now : Int) :
    ((getHealthData overviews details now).history).length ≤ 50
    ∧ ((getHealthData overviews details now).history).Pairwise
        (fun a b => effEndN b ≤ effEndN a)
    ∧ (∀ a ∈ (getHealthData overviews details now).history,
        ∀ b ∈ (sortedHistory details now overviews).drop 50, effEndN b ≤ effEndN a)
    ∧ List.Perm
        ((getHealthData overviews details now).history
          ++ (sortedHistory details now overviews).drop 50)
        (recentHistory details now overviews) := by
  have hsortedBool : (sortedHistory details now overviews).Pairwise
      (fun a b => historyLe a b = true) :=
    List.sorted_mergeSort historyLe_trans historyLe_total
      (recentHistory details now overviews)
  have hsorted : (sortedHistory details now overviews).Pairwise
      (fun a b => effEndN b ≤ effEndN a) :=
    hsortedBool.imp (fun hab => by simpa [historyLe] using hab)
  have hhist : (getHealthData overviews details now).history
      = (sortedHistory details now overviews).take 50 := rfl
  refine ⟨?_, ?_, ?_, ?_⟩
  · rw [hhist]
    exact List.length_take_le 50 _
  · rw [hhist]
    exact hsorted.sublist (List.take_sublist 50 _)
  · rw [hhist]
    have hsplit := hsorted
    rw [← List.take_append_drop 50 (sortedHistory details now overviews),
      List.pairwise_append] at hsplit
    exact fun a ha b hb => hsplit.2.2 a ha b hb
  · rw [hhist, List.take_append_drop]
    exact List.mergeSort_perm _ _

theorem buildService_skip (details : String → Option RawIssue)
    (item : HealthOverview) (l1 l2 : List OverviewIssue) (x : OverviewIssue)
    (hfail : details x.id = none) :
    buildService details { item with issues := l1 ++ x :: l2 }
      = buildService details { item with issues := l1 ++ l2 } := by
  have hx : fetchIssueDetails details x.id false = none := by
    simp [fetchIssueDetails, hfail]
  by_cases hs : x.status ∈ ACTIVE_STATUSES <;>
    simp [buildService, activeIssues, List.filter_append, List.filter_cons, hs,
      List.filterMap_append, List.filterMap_cons, hx]

theorem serviceHistory_skip (details : String → Option RawIssue) (now : Int)
    (item : HealthOverview) (l1 l2 : List OverviewIssue) (x : OverviewIssue)
    (hfail : details x.id = none) :
    serviceHistory details now { item with issues := l1 ++ x :: l2 }
      = serviceHistory details now { item with issues := l1 ++ l2 } := by
  have hx : fetchIssueDetails details x.id true = none := by
    simp [fetchIssueDetails, hfail]
  by_cases hs : x.status ∈ RESOLVED_STATUSES ∧ thirtyDaysAgo now ≤ effectiveEnd x <;>
    simp [serviceHistory, resolvedIssues, List.filter_append, List.filter_cons, hs,
      List.filterMap_append, List.filterMap_cons, hx]

/-- C4: when the detail lookup for an incident fails, the enricher
returns `none` instead of raising (in both active and history mode), and
the builder skips exactly that incident: the snapshot is the same one
that would be produced had the failing incident not been listed, so every
other successfully-enriched incident is still present, on both the active
path and the history path. -/
theorem failed_lookup_skipped (details : String → Option RawIssue) (now : Int)
    (os1 os2 : List HealthOverview) (item : HealthOverview)
    (l1 l2 : List OverviewIssue) (x : OverviewIssue)
    (hfail : details x.id = none) :
    fetchIssueDetails details x.id false = none
    ∧ fetchIssueDetails details x.id true = none
    ∧ getHealthData (os1 ++ { item with issues := l1 ++ x :: l2 } :: os2) details now
      = getHealthData (os1 ++ { item with issues := l1 ++ l2 } :: os2) details now := by
  refine ⟨by simp [fetchIssueDetails, hfail], by simp [fetchIssueDetails, hfail], ?_⟩
  have hb := buildService_skip details item l1 l2 x hfail
  have hh := serviceHistory_skip details now item l1 l2 x hfail
  simp [getHealthData, sortedHistory, recentHistory, List.flatMap_append,
    List.flatMap_cons, hb, hh]

theorem failed_lookup_skipped_witness :
    let details : String → Option RawIssue := fun _ => none
    let x : OverviewIssue :=
      { id := "SP1", status := "investigating", endDateTime := none,
        lastModifiedDateTime := 3 }
    let item : HealthOverview :=
      { service := "SharePoint", status := "serviceOperational", id := "SharePoint",
        issues := [] }
    fetchIssueDetails details x.id false = none
    ∧ fetchIssueDetails details x.id true = none
    ∧ getHealthData [{ item with issues := [] ++ x :: [] }] details 0
      = getHealthData [{ item with issues := [] ++ [] }] details 0 :=
  failed_lookup_skipped (fun _ => none) 0 [] [] _ [] [] _ rfl

/-- An issue whose detail record carries an explicitly supplied but empty
`impactDescription`, while its only post has a "User impact" section. -/
def emptyImpactIssue : RawIssue :=
  { id := "MO1", title := "Mailbox delays", startDateTime := 0, endDateTime := none,
    lastModifiedDateTime := 0, status := "investigating", classification := "incident",
    impactDescription := some "", feature := "Mail flow", isResolved := false,
    posts := [{ createdDateTime := 0, postType := some "regular",
                content := some "User impact: Mailboxes are unreachable." }] }

/-- C7 counterexample: the detail record supplies an explicit
impact-description field (the empty string), yet the user-impact text is
taken from the extracted "User impact" section instead of that field —
`x || ''` and `!userImpact` treat a present-but-empty field exactly like
an absent one, so the explicit field is not always used. -/
theorem explicit_empty_impact_overridden :
    emptyImpactIssue.impactDescription = some ""
    ∧ (buildIssueRecord emptyImpactIssue false).userImpact
        = "Mailboxes are unreachable."
    ∧ (buildIssueRecord emptyImpactIssue false).userImpact ≠ "" := by
  refine ⟨rfl, by decide, by decide⟩

/-- C7 amended: the user-impact text is never null (it falls back to the
empty string); a non-empty explicit impact-description field is always
used as the user-impact text; when that field is absent or empty, the
user-impact is populated from the extracted "User impact" section of the
most recent update (empty string when there is none). -/
theorem userImpact_precedence (fullIssue : RawIssue) (flag : Bool) :
    (∀ s, fullIssue.impactDescription = some s → s ≠ "" →
      (buildIssueRecord fullIssue flag).userImpact = s)
    ∧ (fullIssue.impactDescription.getD "" = "" →
      (buildIssueRecord fullIssue flag).userImpact
        = (fullIssue.posts.getLast?.bind
            (fun p => extractUserImpactSection (p.content.getD ""))).getD "") := by
  constructor
  · intro s hsome hne
    have hbeq : (s == "") = false := by
      cases h : s == "" with
      | false => rfl
      | true => exact absurd (eq_of_beq h) hne
    cases hlast : fullIssue.posts.getLast? with
    | none => simp [buildIssueRecord, hlast, hsome]
    | some p =>
      cases hext : extractUserImpactSection (p.content.getD "") with
      | none => simp [buildIssueRecord, hlast, hsome, hext]
      | some s2 => simp [buildIssueRecord, hlast, hsome, hext, hbeq]
  · intro hempty
    cases hlast : fullIssue.posts.getLast? with
    | none => simp [buildIssueRecord, hlast, hempty]
    | some p =>
      cases hext : extractUserImpactSection (p.content.getD "") with
      | none => simp [buildIssueRecord, hlast, hext, hempty]
      | some s2 => simp [buildIssueRecord, hlast, hext, hempty]

/-- An issue with a non-empty explicit impact description and a post
that also carries a "User impact" section. -/
def explicitImpactIssue : RawIssue :=
  { id := "MO2", title := "Send failures", startDateTime := 0, endDateTime := none,
    lastModifiedDateTime := 0, status := "investigating", classification := "advisory",
    impactDescription := some "Users cannot send mail.", feature := "Mail flow",
    isResolved := false,
    posts := [{ createdDateTime := 0, postType := some "regular",
                content := some "User impact: Something else entirely." }] }

/-- An issue with no impact-description field at all. -/
def absentImpactIssue : RawIssue :=
  { id := "MO3", title := "Calendar lag", startDateTime := 0, endDateTime := none,
    lastModifiedDateTime := 0, status := "investigating", classification := "advisory",
    impactDescription := none, feature := "Calendar", isResolved := false,
    posts := [{ createdDateTime := 0, postType := some "regular",
                content := some "User impact: Meetings appear late." }] }

theorem userImpact_precedence_witness :
    (buildIssueRecord explicitImpactIssue false).userImpact = "Users cannot send mail."
    ∧ (buildIssueRecord absentImpactIssue false).userImpact = "Meetings appear late." :=
  ⟨(userImpact_precedence explicitImpactIssue false).1 "Users cannot send mail."
      rfl (by decide),
   ((userImpact_precedence absentImpactIssue false).2 rfl).trans (by decide)⟩

/-- A resolved issue whose latest post is the claim C8 example text. -/
def scopeRootIssue : RawIssue :=
  { id := "EX2", title := "Network incident", startDateTime := 0, endDateTime := some 10,
    lastModifiedDateTime := 10, status := "serviceRestored", classification := "incident",
    impactDescription := none, feature := "Connectivity", isResolved := true,
    posts := [{ createdDateTime := 0, postType := some "regular",
                content := some "Scope of impact: Users in Europe\nRoot cause: network failure" }] }

/-- C8: labels match case-insensitively and the captured, trimmed text
runs from after the label to the next stop label ("Root cause:",
"Next update by:", "Final status:" for scope; "Next update by:",
"Final status:", "Scope of impact:" for root cause) or end of string; on
the example text the extractor returns scope "Users in Europe" and root
cause "network failure", also through the full enricher. -/
theorem extractor_labels_and_stops :
    (buildIssueRecord scopeRootIssue false).scopeOfImpact = "Users in Europe"
    ∧ (buildIssueRecord scopeRootIssue false).rootCause = "network failure"
    ∧ extractScope "Scope of impact: Users in Europe\nRoot cause: network failure"
        = "Users in Europe"
    ∧ extractRoot "Scope of impact: Users in Europe\nRoot cause: network failure"
        = "network failure"
    ∧ extractScope "SCOPE OF IMPACT: region A Final status: closed" = "region A"
    ∧ extractScope "intro Scope of impact: region B Next update by: Friday" = "region B"
    ∧ extractRoot "Root cause: bad deploy Scope of impact: region C" = "bad deploy"
    ∧ extractRoot "ROOT CAUSE: overload" = "overload" := by
  refine ⟨by decide, by decide, by decide, by decide, by decide, by decide, by decide,
    by decide⟩

theorem findCI_none_of_forall (pat : List Char) :
    ∀ s : List Char, (∀ i, leadsCI pat (s.drop i) = false) → findCI pat s = none
  | [], h => by
    have h0 := h 0
    simp only [List.drop_nil] at h0
    simp [findCI, h0]
  | b :: bs, h => by
    have h0 := h 0
    simp only [List.drop_zero] at h0
    have ih := findCI_none_of_forall pat bs (fun i => by simpa using h (i + 1))
    simp [findCI, h0, ih]

theorem forall_of_findCI_none (pat : List Char) :
    ∀ s : List Char, findCI pat s = none → ∀ i, leadsCI pat (s.drop i) = false
  | [], h, i => by
    simp only [findCI] at h
    rw [List.drop_nil]
    by_cases hl : leadsCI pat [] = true
    · simp [hl] at h
    · simpa using hl
  | b :: bs, h, i => by
    simp only [findCI] at h
    by_cases hl : leadsCI pat (b :: bs) = true
    · simp [hl] at h
    · have hl' : leadsCI pat (b :: bs) = false := by simpa using hl
      simp only [hl', Bool.false_eq_true, if_false, Option.map_eq_none'] at h
      match i with
      | 0 => simpa using hl'
      | n + 1 => simpa using forall_of_findCI_none pat bs h n

/-- C9: per label — when a recognized label (with its colon) does not
occur anywhere in the text, case-insensitively, at any position, the
extractor yields the empty string for that field alone, regardless of
whether the other labels occur (for the user-impact extraction: no
match, leaving the impact-description fallback untouched), and being a
total function it never raises an error. -/
theorem missing_labels_yield_empty (content : String) :
    ((∀ i, leadsCI scopeLab (content.toList.drop i) = false) →
      extractScope content = ""
      ∧ ∀ (fullIssue : RawIssue) (p : RawPost),
          fullIssue.posts.getLast? = some p → p.content = some content →
          (buildIssueRecord fullIssue false).scopeOfImpact = "")
    ∧ ((∀ i, leadsCI rootLab (content.toList.drop i) = false) →
      extractRoot content = ""
      ∧ ∀ (fullIssue : RawIssue) (p : RawPost),
          fullIssue.posts.getLast? = some p → p.content = some content →
          (buildIssueRecord fullIssue false).rootCause = "")
    ∧ ((∀ i, leadsCI impactLab (content.toList.drop i) = false) →
      extractUserImpactSection content = none
      ∧ ∀ (fullIssue : RawIssue) (p : RawPost),
          fullIssue.posts.getLast? = some p → p.content = some content →
          (buildIssueRecord fullIssue false).userImpact
            = fullIssue.impactDescription.getD "") := by
  refine ⟨?_, ?_, ?_⟩
  · intro h1
    have hs : captureAfter scopeLab scopeStops content.toList = none := by
      simp only [captureAfter, findCI_none_of_forall scopeLab content.toList h1,
        Option.map_none']
    have hes : extractScope content = "" := by
      simp only [extractScope, hs, Option.map_none', Option.getD_none]
    refine ⟨hes, ?_⟩
    intro fullIssue p hlast hcont
    simp [buildIssueRecord, hlast, hcont, hes]
  · intro h2
    have hr : captureAfter rootLab rootStops content.toList = none := by
      simp only [captureAfter, findCI_none_of_forall rootLab content.toList h2,
        Option.map_none']
    have her : extractRoot content = "" := by
      simp only [extractRoot, hr, Option.map_none', Option.getD_none]
    refine ⟨her, ?_⟩
    intro fullIssue p hlast hcont
    simp [buildIssueRecord, hlast, hcont, her]
  · intro h3
    have hi : captureAfter impactLab impactStops content.toList = none := by
      simp only [captureAfter, findCI_none_of_forall impactLab content.toList h3,
        Option.map_none']
    have hei : extractUserImpactSection content = none := by
      simp only [extractUserImpactSection, hi, Option.map_none']
    refine ⟨hei, ?_⟩
    intro fullIssue p hlast hcont
    simp [buildIssueRecord, hlast, hcont, hei]

def noLabelContent : String := "All services are operating normally."

/-- A body containing the root-cause label but not the scope label: the
per-label statement applies to the scope field alone. -/
def rootOnlyContent : String := "Root cause: power outage"

theorem missing_labels_witness :
    extractScope noLabelContent = ""
    ∧ extractRoot noLabelContent = ""
    ∧ extractUserImpactSection noLabelContent = none
    ∧ extractScope rootOnlyContent = ""
    ∧ extractRoot rootOnlyContent = "power outage" :=
  have h := missing_labels_yield_empty noLabelContent
  ⟨(h.1 (forall_of_findCI_none scopeLab noLabelContent.toList (by decide))).1,
   (h.2.1 (forall_of_findCI_none rootLab noLabelContent.toList (by decide))).1,
   (h.2.2 (forall_of_findCI_none impactLab noLabelContent.toList (by decide))).1,
   ((missing_labels_yield_empty rootOnlyContent).1
     (forall_of_findCI_none scopeLab rootOnlyContent.toList (by decide))).1,
   by decide⟩

def emptyDetails : String → Option RawIssue := fun _ => none

theorem history_sorted_and_capped_witness :
    ((getHealthData [] emptyDetails 0).history).length ≤ 50
    ∧ ((getHealthData [] emptyDetails 0).history).Pairwise
        (fun a b => effEndN b ≤ effEndN a)
    ∧ (∀ a ∈ (getHealthData [] emptyDetails 0).history,
        ∀ b ∈ (sortedHistory emptyDetails 0 []).drop 50, effEndN b ≤ effEndN a)
    ∧ List.Perm
        ((getHealthData [] emptyDetails 0).history
          ++ (sortedHistory emptyDetails 0 []).drop 50)
        (recentHistory emptyDetails 0 []) :=
  history_sorted_and_capped [] emptyDetails 0

def twoRawPosts : List RawPost :=
  [{ createdDateTime := 5, postType := some "regular", content := some "older" },
   { createdDateTime := 7, postType := some "regular", content := some "newer" }]

theorem normalized_updates_sorted_stable_witness :
    ((normalizePosts twoRawPosts).Pairwise (fun u1 u2 => u2.createdAt ≤ u1.createdAt))
    ∧ ∀ t : Int,
      (normalizePosts twoRawPosts).filter (fun u => u.createdAt == t)
        = (twoRawPosts.map rawToNormalizedPost).filter (fun u => u.createdAt == t) :=
  normalized_updates_sorted_stable twoRawPosts

theorem history_update_cap_witness :
    (buildIssueRecord scopeRootIssue true).posts
      = ((buildIssueRecord scopeRootIssue false).posts).take 5
    ∧ (buildIssueRecord scopeRootIssue true).posts.length ≤ 5
    ∧ (buildIssueRecord scopeRootIssue false).posts.length = scopeRootIssue.posts.length :=
  history_update_cap scopeRootIssue
